import Mathlib

/-!
Verification of the jot Telegram/Jules bridge: a shallow embedding of the
activity-polling engine (cursor filtering and per-activity dispatch), the
activity classifier, the notification policy, the message formatter, the
KV storage key layout, and the source-catalog paginators, together with
theorems checking the specification claims against these definitions.

Conventions of the embedding:
- TypeScript optional fields become Option; optional chaining a?.b becomes
  Option.bind.
- Network dispatch outcomes (processActivity succeeding or throwing) are
  abstracted as a deterministic predicate supplied to the polling loop.
- JavaScript strings are Lean Strings; str.includes(sub) is substring
  (infix) search on the character lists.
-/

namespace Jot

/-! ## Data model (src/types/env.ts shapes used by the processor) -/

/-- artifacts.bashOutput of a Jules activity. -/
structure BashOutput where
  command : Option String := none
  output : Option String := none
  exitCode : Option Int := none
deriving DecidableEq, Repr

/-- One entry of artifacts.changeSet.files. -/
structure ChangeSetFile where
  path : Option String := none
  changeType : Option String := none
deriving DecidableEq, Repr

/-- artifacts.changeSet.gitPatch. -/
structure GitPatch where
  unidiffPatch : Option String := none
deriving DecidableEq, Repr

/-- artifacts.changeSet of a Jules activity. -/
structure ChangeSet where
  files : Option (List ChangeSetFile) := none
  gitPatch : Option GitPatch := none
deriving DecidableEq, Repr

/-- artifacts.media of a Jules activity. -/
structure Media where
  data : Option String := none
deriving DecidableEq, Repr

/-- artifacts object of a Jules activity. -/
structure Artifacts where
  bashOutput : Option BashOutput := none
  changeSet : Option ChangeSet := none
  media : Option Media := none
deriving DecidableEq, Repr

/-- A Jules activity as consumed by the processor: name is the opaque
identifier used for the cursor. -/
structure JulesActivity where
  name : String := ""
  title : Option String := none
  description : Option String := none
  artifacts : Option Artifacts := none
deriving DecidableEq, Repr

/-- activity.artifacts?.bashOutput (optional chaining). -/
def JulesActivity.bashOutputOpt (a : JulesActivity) : Option BashOutput :=
  a.artifacts.bind (fun ar => ar.bashOutput)

/-- activity.artifacts?.changeSet (optional chaining). -/
def JulesActivity.changeSetOpt (a : JulesActivity) : Option ChangeSet :=
  a.artifacts.bind (fun ar => ar.changeSet)

/-- activity.artifacts?.media (optional chaining). -/
def JulesActivity.mediaOpt (a : JulesActivity) : Option Media :=
  a.artifacts.bind (fun ar => ar.media)

/-! ## Cursor filtering and the dispatch loop (src/cron/pollActivities.ts,
processNewActivities) -/

/-- Array.prototype.findIndex: index of the first element satisfying p, with
the -1 result rendered as none. -/
def findIndex (p : α → Bool) : List α → Option Nat
  | [] => none
  | x :: xs => if p x then some 0 else (findIndex p xs).map (fun i => i + 1)

/-- The filter step of processNewActivities: if a stored lastActivityId is
present and found in the returned list (findIndex on a.name), keep only the
activities after it (slice(lastIndex + 1)); otherwise treat the whole list
as new. -/
def filterNewActivities (lastActivityId : Option String)
    (activities : List JulesActivity) : List JulesActivity :=
  match lastActivityId with
  | none => activities
  | some cursorId =>
    match findIndex (fun a => a.name == cursorId) activities with
    | some lastIndex => activities.drop (lastIndex + 1)
    | none => activities

/-- The per-activity loop of processNewActivities: for each activity, call
processActivity and, if it did not throw, setLastActivityId(activity.name);
on a throw the cursor write is skipped and the loop continues with the next
activity. The outcome of processActivity is abstracted as the deterministic
predicate ok. Returns the final stored cursor and the names dispatched
successfully, in order. -/
def dispatchLoop (ok : JulesActivity → Bool) :
    Option String → List JulesActivity → Option String × List String
  | cursor, [] => (cursor, [])
  | cursor, a :: rest =>
    if ok a then
      let r := dispatchLoop ok (some a.name) rest
      (r.1, a.name :: r.2)
    else
      dispatchLoop ok cursor rest

/-- processNewActivities: filter to activities after the stored cursor, then
dispatch each in order, advancing the stored cursor after each successful
dispatch. -/
def processNewActivities (ok : JulesActivity → Bool) (lastActivityId : Option String)
    (activities : List JulesActivity) : Option String × List String :=
  dispatchLoop ok lastActivityId (filterNewActivities lastActivityId activities)

/-- Abbreviation for an activity carrying only a name. -/
def actNamed (n : String) : JulesActivity := { name := n }

/-! ## Lemmas about the dispatch loop and the cursor filter -/

theorem dispatchLoop_nil (ok : JulesActivity → Bool) (c : Option String) :
    dispatchLoop ok c [] = (c, []) := rfl

theorem dispatchLoop_cons (ok : JulesActivity → Bool) (c : Option String)
    (a : JulesActivity) (rest : List JulesActivity) :
    dispatchLoop ok c (a :: rest) =
      if ok a then
        ((dispatchLoop ok (some a.name) rest).1,
          a.name :: (dispatchLoop ok (some a.name) rest).2)
      else dispatchLoop ok c rest := by
  cases h : ok a <;> simp [dispatchLoop, h]

theorem dispatchLoop_all_fail (ok : JulesActivity → Bool) (c : Option String)
    (l : List JulesActivity) (h : ∀ b ∈ l, ok b = false) :
    dispatchLoop ok c l = (c, []) := by
  induction l with
  | nil => rfl
  | cons a rest ih =>
    have ha : ok a = false := h a (by simp)
    rw [dispatchLoop_cons, if_neg (by simp [ha])]
    exact ih (fun b hb => h b (by simp [hb]))

theorem dispatchLoop_append_fail (ok : JulesActivity → Bool) (c : Option String)
    (pre tail : List JulesActivity) (h : ∀ b ∈ tail, ok b = false) :
    dispatchLoop ok c (pre ++ tail) = dispatchLoop ok c pre := by
  induction pre generalizing c with
  | nil =>
    simpa using dispatchLoop_all_fail ok c tail h
  | cons a rest ih =>
    rw [List.cons_append, dispatchLoop_cons, dispatchLoop_cons, ih, ih]

/-- The cursor after a dispatch loop is either the incoming cursor (when
every activity failed) or the name of the last activity that dispatched
successfully, everything after which failed. -/
theorem dispatchLoop_cursor_cases (ok : JulesActivity → Bool) (c : Option String)
    (l : List JulesActivity) :
    ((dispatchLoop ok c l).1 = c ∧ ∀ b ∈ l, ok b = false) ∨
    (∃ xs a ys, l = xs ++ a :: ys ∧ ok a = true ∧ (∀ b ∈ ys, ok b = false) ∧
      (dispatchLoop ok c l).1 = some a.name) := by
  induction l generalizing c with
  | nil => exact Or.inl ⟨rfl, by simp⟩
  | cons a rest ih =>
    cases ha : ok a with
    | true =>
      rcases ih (some a.name) with ⟨h1, h2⟩ | ⟨xs, b, ys, hsplit, hb, hys, hcur⟩
      · refine Or.inr ⟨[], a, rest, by simp, ha, h2, ?_⟩
        rw [dispatchLoop_cons, if_pos ha]
        exact h1
      · refine Or.inr ⟨a :: xs, b, ys, by rw [hsplit]; rfl, hb, hys, ?_⟩
        rw [dispatchLoop_cons, if_pos ha]
        exact hcur
    | false =>
      rcases ih c with ⟨h1, h2⟩ | ⟨xs, b, ys, hsplit, hb, hys, hcur⟩
      · refine Or.inl ⟨?_, ?_⟩
        · rw [dispatchLoop_cons, if_neg (by simp [ha])]
          exact h1
        · intro x hx
          rcases List.mem_cons.mp hx with h | h
          · rw [h]; exact ha
          · exact h2 x h
      · refine Or.inr ⟨a :: xs, b, ys, by rw [hsplit]; rfl, hb, hys, ?_⟩
        rw [dispatchLoop_cons, if_neg (by simp [ha])]
        exact hcur

theorem filterNewActivities_eq_drop (cur : Option String) (acts : List JulesActivity) :
    ∃ k, filterNewActivities cur acts = acts.drop k := by
  cases cur with
  | none => exact ⟨0, rfl⟩
  | some c =>
    cases h : findIndex (fun a => a.name == c) acts with
    | none => exact ⟨0, by simp [filterNewActivities, h]⟩
    | some i => exact ⟨i + 1, by simp [filterNewActivities, h]⟩

theorem findIndex_append_first (p : α → Bool) (vs : List α) (a : α) (ws : List α)
    (hvs : ∀ x ∈ vs, p x = false) (ha : p a = true) :
    findIndex p (vs ++ a :: ws) = some vs.length := by
  induction vs with
  | nil => simp [findIndex, ha]
  | cons x xs ih =>
    have hx : p x = false := hvs x (by simp)
    simp [findIndex, hx, ih (fun y hy => hvs y (by simp [hy]))]

theorem drop_append_cons (vs : List α) (a : α) (ws : List α) :
    (vs ++ a :: ws).drop (vs.length + 1) = ws := by
  induction vs with
  | nil => simp
  | cons x xs ih => simp [ih]

/-- When the cursor value is the name of an activity that occurs in the
remote list, and activity names are distinct, the filter keeps exactly the
activities after that occurrence. -/
theorem filterNewActivities_found (vs ws : List JulesActivity) (a : JulesActivity)
    (hnodup : (((vs ++ a :: ws)).map (fun x => x.name)).Nodup) :
    filterNewActivities (some a.name) (vs ++ a :: ws) = ws := by
  have hdisj := (List.nodup_append.mp (by simpa using hnodup)).2.2
  have hvs : ∀ x ∈ vs, (x.name == a.name) = false := by
    intro x hx
    have hne : x.name ≠ a.name := by
      intro heq
      exact hdisj (List.mem_map_of_mem (fun y => y.name) hx) (by simp [heq])
    simp [hne]
  have hfi : findIndex (fun x => x.name == a.name) (vs ++ a :: ws) = some vs.length :=
    findIndex_append_first _ _ _ _ hvs (by simp)
  simp [filterNewActivities, hfi, drop_append_cons]

/-- C3: re-running processNewActivities with the cursor value stored by a
completed run, over the same remote activities list and the same
deterministic dispatch outcomes, dispatches zero activities and leaves the
cursor unchanged. Activity names are assumed distinct, being remote
identifiers. -/
theorem c3_cursor_idempotent (ok : JulesActivity → Bool) (cur : Option String)
    (acts : List JulesActivity) (hnodup : (acts.map (fun x => x.name)).Nodup) :
    (processNewActivities ok (processNewActivities ok cur acts).1 acts).2 = [] ∧
    (processNewActivities ok (processNewActivities ok cur acts).1 acts).1 =
      (processNewActivities ok cur acts).1 := by
  obtain ⟨k, hk⟩ := filterNewActivities_eq_drop cur acts
  rcases dispatchLoop_cursor_cases ok cur (filterNewActivities cur acts) with
    ⟨hc, hfail⟩ | ⟨xs, a, ys, hsplit, ha, hys, hc⟩
  · have h2 : dispatchLoop ok cur (filterNewActivities cur acts) = (cur, []) :=
      dispatchLoop_all_fail ok cur _ hfail
    have hc1 : (processNewActivities ok cur acts).1 = cur := by
      simp [processNewActivities, h2]
    rw [hc1]
    simp [processNewActivities, h2]
  · have hacts : acts = (acts.take k ++ xs) ++ a :: ys := by
      have h1 : acts = acts.take k ++ acts.drop k := (List.take_append_drop k acts).symm
      rw [← hk, hsplit] at h1
      exact h1.trans (List.append_assoc _ _ _).symm
    have hc1 : (processNewActivities ok cur acts).1 = some a.name := hc
    have hfound : filterNewActivities (some a.name) acts = ys := by
      rw [hacts] at hnodup ⊢
      exact filterNewActivities_found _ _ _ hnodup
    rw [hc1]
    have h2 : dispatchLoop ok (some a.name) ys = (some a.name, []) :=
      dispatchLoop_all_fail ok _ _ hys
    simp [processNewActivities, hfound, h2]

/-- C1 counterexample: batch [act_1, act_2, act_3] with the dispatch of act_2
throwing and the others succeeding. The stored cursor after the run is
act_3, an activity strictly after the failed act_2, and the next run with
this cursor fetches nothing, so the failed activity is not retried —
contradicting the claim that the cursor is never advanced past a failed
activity and that the failed activity is fetched again on the next run. -/
theorem c1_counterexample :
    (fun a : JulesActivity => a.name != "act_2") (actNamed "act_2") = false ∧
    (processNewActivities (fun a => a.name != "act_2") none
      [actNamed "act_1", actNamed "act_2", actNamed "act_3"]).1 = some "act_3" ∧
    filterNewActivities (some "act_3")
      [actNamed "act_1", actNamed "act_2", actNamed "act_3"] = [] := by
  decide

/-- C1 amended: if dispatching one activity throws, that dispatch itself does
not advance the cursor, and as long as every later activity of the batch
also fails, the cursor is not advanced past the failed activity, which is
therefore fetched again on the next run. (A later activity of the same batch
that dispatches successfully does advance the cursor past the failed one.) -/
theorem c1_failed_activity_refetched (ok : JulesActivity → Bool) (cur : Option String)
    (acts pre suf : List JulesActivity) (f : JulesActivity)
    (hnodup : (acts.map (fun x => x.name)).Nodup)
    (hsplit : filterNewActivities cur acts = pre ++ f :: suf)
    (hf : ok f = false) (hsuf : ∀ b ∈ suf, ok b = false) :
    f ∈ filterNewActivities (processNewActivities ok cur acts).1 acts := by
  obtain ⟨k, hk⟩ := filterNewActivities_eq_drop cur acts
  have htail : ∀ b ∈ f :: suf, ok b = false := by
    intro b hb
    rcases List.mem_cons.mp hb with h | h
    · rw [h]; exact hf
    · exact hsuf b h
  have hsplit2 : filterNewActivities cur acts = pre ++ (f :: suf) := hsplit
  have hloop : dispatchLoop ok cur (filterNewActivities cur acts) =
      dispatchLoop ok cur pre := by
    rw [hsplit2]
    exact dispatchLoop_append_fail ok cur pre (f :: suf) htail
  have hc1 : (processNewActivities ok cur acts).1 = (dispatchLoop ok cur pre).1 := by
    simp [processNewActivities, hloop]
  rcases dispatchLoop_cursor_cases ok cur pre with ⟨hc, _⟩ | ⟨xs, a, ys, hpre, ha, hys, hc⟩
  · rw [hc1, hc, hsplit]
    simp
  · have hacts : acts = (acts.take k ++ xs) ++ a :: (ys ++ f :: suf) := by
      have h1 : acts = acts.take k ++ acts.drop k := (List.take_append_drop k acts).symm
      rw [← hk, hsplit2, hpre] at h1
      exact h1.trans (by simp)
    have hfound : filterNewActivities (some a.name) acts = ys ++ f :: suf := by
      rw [hacts] at hnodup ⊢
      exact filterNewActivities_found _ _ _ hnodup
    rw [hc1, hc, hfound]
    simp

/-- C1 witness for the amended statement: with the batch [act_1, act_2] and
act_2 failing as the last activity, act_2 is fetched again by the next
run. -/
theorem c1_refetched_witness :
    actNamed "act_2" ∈ filterNewActivities
      (processNewActivities (fun a => a.name != "act_2") none
        [actNamed "act_1", actNamed "act_2"]).1
      [actNamed "act_1", actNamed "act_2"] :=
  c1_failed_activity_refetched (fun a => a.name != "act_2") none
    [actNamed "act_1", actNamed "act_2"] [actNamed "act_1"] [] (actNamed "act_2")
    (by decide) (by decide) (by decide) (by simp)

/-- C3 witness: a concrete batch with a mid-batch failure still rescans to
zero dispatches on the second run. -/
theorem c3_cursor_witness :
    (processNewActivities (fun a => a.name != "act_2")
        (processNewActivities (fun a => a.name != "act_2") none
          [actNamed "act_1", actNamed "act_2", actNamed "act_3"]).1
        [actNamed "act_1", actNamed "act_2", actNamed "act_3"]).2 = [] :=
  (c3_cursor_idempotent (fun a => a.name != "act_2") none
    [actNamed "act_1", actNamed "act_2", actNamed "act_3"] (by decide)).1

/-- C2: with stored cursor act_100 and remote list
[act_98, act_99, act_100, act_101, act_102], exactly act_101 and act_102 are
dispatched, in that order, and the stored cursor after the run is act_102. -/
theorem c2_cursor_scenario :
    processNewActivities (fun _ => true) (some "act_100")
      [actNamed "act_98", actNamed "act_99", actNamed "act_100",
       actNamed "act_101", actNamed "act_102"]
      = (some "act_102", ["act_101", "act_102"]) := by
  decide

/-! ## Activity classifier (src/bot/handlers/activityProcessor.ts,
getActivityType) -/

/-- Whether the first list starts the second, character by character. -/
def startsWithChars : List Char → List Char → Bool
  | [], _ => true
  | _ :: _, [] => false
  | a :: as, b :: bs => a == b && startsWithChars as bs
/-- Whether the first list occurs contiguously inside the second. -/
def containsChars (needle : List Char) : List Char → Bool
  | [] => needle.isEmpty
  | c :: rest => startsWithChars needle (c :: rest) || containsChars needle rest

/-- JavaScript String.prototype.includes: substring search. -/
def jsIncludes (s sub : String) : Bool := containsChars sub.data s.data

/-- JavaScript String.prototype.toLowerCase on the character list (agrees
with it on the ASCII phrases the classifier matches). -/
def jsToLower (s : String) : String := String.mk (s.data.map Char.toLower)

/-- getActivityType: classify an activity via case-insensitive substring
checks on title and description, in source order; the structural
bashOutput/changeSet signal appears only in the progressUpdated test. -/
def getActivityType (activity : JulesActivity) : String :=
  let title := jsToLower (activity.title.getD "")
  let description := jsToLower (activity.description.getD "")
  if jsIncludes title "plan generated" || jsIncludes title "plan created" then
    "planGenerated"
  else if jsIncludes title "plan approved" then
    "planApproved"
  else if jsIncludes title "ready for review" || jsIncludes description "ready for review" then
    "readyForReview"
  else if jsIncludes title "progress" || activity.bashOutputOpt.isSome
      || activity.changeSetOpt.isSome then
    "progressUpdated"
  else if jsIncludes title "completed" || jsIncludes title "finished" then
    "sessionCompleted"
  else
    "generic"

/-- An activity whose title carries a plan-generated trigger phrase while its
artifacts carry a populated command-output field. -/
def c5Activity : JulesActivity :=
  { name := "a1",
    title := some "Plan generated",
    artifacts := some
      { bashOutput := some
          { command := some "ls", output := some "x", exitCode := some 0 } } }

/-- C5 counterexample: an activity carrying a populated bash-output artifact
whose title contains the free-text phrase "plan generated" is classified
planGenerated, not progressUpdated: the free-text plan phrase is tested
before the structural signal, so structure does not outrank free text. -/
theorem c5_counterexample :
    c5Activity.bashOutputOpt.isSome = true ∧
    getActivityType c5Activity = "planGenerated" ∧
    getActivityType c5Activity ≠ "progressUpdated" := by
  decide

/-- C5 amended: the structural bash-output/change-set signal determines the
progressUpdated kind ahead of the completion free-text phrases and of the
generic fallback, but only when none of the plan / plan-approved /
ready-for-review free-text phrases match title or description — those
earlier free-text rules outrank the structural signal. -/
theorem c5_structural_signal_scope (a : JulesActivity)
    (hstruct : a.bashOutputOpt.isSome = true ∨ a.changeSetOpt.isSome = true)
    (h1 : jsIncludes (jsToLower (a.title.getD "")) "plan generated" = false)
    (h2 : jsIncludes (jsToLower (a.title.getD "")) "plan created" = false)
    (h3 : jsIncludes (jsToLower (a.title.getD "")) "plan approved" = false)
    (h4 : jsIncludes (jsToLower (a.title.getD "")) "ready for review" = false)
    (h5 : jsIncludes (jsToLower (a.description.getD "")) "ready for review" = false) :
    getActivityType a = "progressUpdated" := by
  rcases hstruct with hb | hc
  · simp [getActivityType, h1, h2, h3, h4, h5, hb]
  · simp [getActivityType, h1, h2, h3, h4, h5, hc]

/-- C5 witness: an activity whose title contains the completion phrase but
which carries a change-set artifact is classified progressUpdated. -/
theorem c5_witness :
    getActivityType
      { name := "a2", title := some "Task completed",
        artifacts := some { changeSet := some { files := some [] } } }
      = "progressUpdated" :=
  c5_structural_signal_scope _ (Or.inr (by decide)) (by decide) (by decide) (by decide)
    (by decide) (by decide)

/-! ## Message formatter (src/utils/formatters.ts) -/

/-- Per-character form of escapeHtml. The source chains four global
replaces (amp, lt, gt, quot, in that order); since no replacement string
contains a character replaced by a later pass, the chain equals this
single character map applied across the string. -/
def escapeChar (c : Char) : List Char :=
  if c = '&' then "&amp;".data
  else if c = '<' then "&lt;".data
  else if c = '>' then "&gt;".data
  else if c = '"' then "&quot;".data
  else [c]

/-- escapeHtml: escape the four HTML-special characters for Telegram HTML
parse mode. -/
def escapeHtml (text : String) : String := String.mk (text.data.flatMap escapeChar)

/-- Inverse of the escaping, used to express that collapsed content is
complete (recoverable), not truncated. -/
def unescapeChars (l : List Char) : List Char :=
  match l with
  | [] => []
  | c :: rest =>
    if c = '&' && startsWithChars "amp;".data rest then
      '&' :: unescapeChars (rest.drop 4)
    else if c = '&' && startsWithChars "lt;".data rest then
      '<' :: unescapeChars (rest.drop 3)
    else if c = '&' && startsWithChars "gt;".data rest then
      '>' :: unescapeChars (rest.drop 3)
    else if c = '&' && startsWithChars "quot;".data rest then
      '"' :: unescapeChars (rest.drop 5)
    else c :: unescapeChars rest
termination_by l.length
decreasing_by
  all_goals simp [List.length_drop]
  all_goals omega

/-- String form of the unescaper. -/
def htmlUnescape (s : String) : String := String.mk (unescapeChars s.data)

theorem unescapeChars_cons_generic (c : Char) (l : List Char) (h1 : c ≠ '&') :
    unescapeChars (c :: l) = c :: unescapeChars l := by
  rw [unescapeChars]
  simp [h1]

theorem unescape_escapeChar (c : Char) (l : List Char) :
    unescapeChars (escapeChar c ++ l) = c :: unescapeChars l := by
  by_cases h1 : c = '&'
  · subst h1
    show unescapeChars ('&' :: ('a' :: 'm' :: 'p' :: ';' :: l)) = '&' :: unescapeChars l
    rw [unescapeChars]
    simp [startsWithChars]
  · by_cases h2 : c = '<'
    · subst h2
      show unescapeChars ('&' :: ('l' :: 't' :: ';' :: l)) = '<' :: unescapeChars l
      rw [unescapeChars]
      simp [startsWithChars]
    · by_cases h3 : c = '>'
      · subst h3
        show unescapeChars ('&' :: ('g' :: 't' :: ';' :: l)) = '>' :: unescapeChars l
        rw [unescapeChars]
        simp [startsWithChars]
      · by_cases h4 : c = '"'
        · subst h4
          show unescapeChars ('&' :: ('q' :: 'u' :: 'o' :: 't' :: ';' :: l))
            = '"' :: unescapeChars l
          rw [unescapeChars]
          simp [startsWithChars]
        · rw [escapeChar, if_neg h1, if_neg h2, if_neg h3, if_neg h4,
            List.singleton_append, unescapeChars_cons_generic c l h1]

theorem unescape_escape (l : List Char) : unescapeChars (l.flatMap escapeChar) = l := by
  induction l with
  | nil => simp [unescapeChars]
  | cons c t ih => rw [List.flatMap_cons, unescape_escapeChar, ih]

/-- Escaping loses nothing: the original string is recoverable from the
escaped one, so escaping never truncates. -/
theorem htmlUnescape_escapeHtml (s : String) : htmlUnescape (escapeHtml s) = s := by
  cases s with
  | mk d => exact congrArg String.mk (unescape_escape d)

/-- createExpandableBlockquote: a bold always-visible title plus a
fully-expandable blockquote body holding the whole (escaped) content. -/
def createExpandableBlockquote (title content : String) : String :=
  "<b>" ++ escapeHtml title ++ "</b>\n<blockquote expandable>"
    ++ escapeHtml content ++ "</blockquote>"

/-- formatBashOutput: outputs shorter than 200 characters render inline in a
pre block; longer outputs render as an expandable blockquote holding the
complete escaped output. -/
def formatBashOutput (command output : String) (exitCode : Int) : String :=
  let emoji := if exitCode ≠ 0 then "⚠️" else "🔧"
  let statusText :=
    if exitCode ≠ 0 then "(exit code: " ++ toString exitCode ++ ")" else ""
  if output.length < 200 then
    emoji ++ " <b>Command:</b> <code>" ++ escapeHtml command ++ "</code> " ++ statusText
      ++ "\n\n<pre>" ++ escapeHtml output ++ "</pre>"
  else
    createExpandableBlockquote (emoji ++ " Command: " ++ command ++ " " ++ statusText) output

/-- C7: a 199-character command output takes the inline branch, while a
400-character output takes the collapsed-expandable branch whose body is
the escaped output in full; the escaped body is complete (the unescaper
recovers the original output), so collapsing, not truncation, handles long
content. -/
theorem c7_collapsing_threshold (command out199 out400 : String) (exitCode : Int)
    (h199 : out199.length = 199) (h400 : out400.length = 400) :
    formatBashOutput command out199 exitCode =
      (if exitCode ≠ 0 then "⚠️" else "🔧") ++ " <b>Command:</b> <code>"
        ++ escapeHtml command ++ "</code> "
        ++ (if exitCode ≠ 0 then "(exit code: " ++ toString exitCode ++ ")" else "")
        ++ "\n\n<pre>" ++ escapeHtml out199 ++ "</pre>" ∧
    formatBashOutput command out400 exitCode =
      "<b>" ++ escapeHtml ((if exitCode ≠ 0 then "⚠️" else "🔧") ++ " Command: "
          ++ command ++ " "
          ++ (if exitCode ≠ 0 then "(exit code: " ++ toString exitCode ++ ")" else ""))
        ++ "</b>\n<blockquote expandable>" ++ escapeHtml out400 ++ "</blockquote>" ∧
    htmlUnescape (escapeHtml out400) = out400 := by
  refine ⟨?_, ?_, htmlUnescape_escapeHtml out400⟩
  · rw [formatBashOutput, if_pos (by omega)]
  · rw [formatBashOutput, if_neg (by omega)]
    rfl

set_option maxRecDepth 4000 in
/-- C7 witness: concrete outputs of lengths 199 and 400. -/
theorem c7_collapsing_witness :
    htmlUnescape (escapeHtml (String.mk (List.replicate 400 'b')))
      = String.mk (List.replicate 400 'b') :=
  (c7_collapsing_threshold "ls" (String.mk (List.replicate 199 'a'))
    (String.mk (List.replicate 400 'b')) 0 (by decide) (by decide)).2.2

/-! ## Remaining formatters used by the activity processor -/

/-- JavaScript truthiness of an optional string: defined and nonempty. -/
def jsTruthy (s : Option String) : Bool :=
  match s with
  | some t => !(t == "")
  | none => false

/-- JavaScript a-or-b on strings: b when a is undefined or empty. -/
def jsOr (a : Option String) (b : String) : String :=
  match a with
  | some s => if s == "" then b else s
  | none => b

/-- JavaScript String.prototype.trim at the character level. -/
def trimChars (l : List Char) : List Char :=
  ((l.dropWhile (fun c => c.isWhitespace)).reverse.dropWhile
    (fun c => c.isWhitespace)).reverse

/-- JavaScript String.prototype.trim. -/
def jsTrim (s : String) : String := String.mk (trimChars s.data)

/-- getChangeTypeIcon: icon for a file change type. -/
def getChangeTypeIcon (changeType : Option String) : String :=
  match changeType with
  | some "ADDED" => "➕"
  | some "MODIFIED" => "✏️"
  | some "DELETED" => "❌"
  | some "RENAMED" => "🔄"
  | _ => "📄"

/-- formatChangeSet: inline list for at most five files, expandable
blockquote beyond that; the gitPatch parameter is accepted and unused, as in
the source. -/
def formatChangeSet (files : List ChangeSetFile) (gitPatch : Option String) : String :=
  let fileCount := files.length
  if fileCount ≤ 5 then
    let filesList := String.intercalate "\n" (files.map (fun f =>
      getChangeTypeIcon f.changeType ++ " <code>" ++ escapeHtml (f.path.getD "unknown")
        ++ "</code>"))
    "📁 <b>Files modified (" ++ toString fileCount ++ "):</b>\n" ++ filesList
  else
    let filesList := String.intercalate "\n" (files.map (fun f =>
      getChangeTypeIcon f.changeType ++ " " ++ f.path.getD "unknown"))
    createExpandableBlockquote
      ("📁 Files modified (" ++ toString fileCount ++ " files)") filesList

/-- formatActivityMessage: special-cases the ready-for-review phrase, then
bold title plus description, with a fallback when both are empty. -/
def formatActivityMessage (title description : Option String) : String :=
  if jsIncludes (jsToLower (title.getD "")) "ready for review"
      || jsIncludes (jsToLower (description.getD "")) "ready for review" then
    "🎉 <b>Ready for review!</b>\n\nJules finalized the changes."
  else
    let m1 := if jsTruthy title then "<b>" ++ escapeHtml (title.getD "") ++ "</b>\n" else ""
    let m2 := if jsTruthy description then "\n" ++ escapeHtml (description.getD "") else ""
    if (m1 ++ m2) == "" then "Activity received." else m1 ++ m2

/-! ## Notification dispatch model (src/bot/handlers/activityProcessor.ts) -/

/-- One outbound Telegram call made while processing an activity; the flag is
disable_notification (false means audible). -/
inductive Send where
  | photo (caption : String) (disableNotification : Bool)
  | text (message : String) (disableNotification : Bool)
deriving DecidableEq, Repr

/-- The disable_notification flags of the text sends, in order. -/
def textSendFlags (sends : List Send) : List Bool :=
  sends.filterMap (fun s =>
    match s with
    | Send.text _ f => some f
    | _ => none)

/-- The bash-output section of the progressUpdated message. -/
def bashSection (a : JulesActivity) : String :=
  match a.bashOutputOpt with
  | some bash =>
    formatBashOutput (jsOr bash.command "unknown") (jsOr bash.output "")
      (bash.exitCode.getD 0) ++ "\n\n"
  | none => ""

/-- The change-set section of the progressUpdated message. -/
def changeSection (a : JulesActivity) : String :=
  match a.changeSetOpt with
  | some cs =>
    let files := cs.files.getD []
    if files.length > 0 then
      formatChangeSet files (cs.gitPatch.bind (fun g => g.unidiffPatch)) ++ "\n\n"
    else ""
  | none => ""

/-- The section appended when sending the attached media fails
(mediaSendOk abstracts the try/catch around the photo upload). -/
def mediaFailSection (mediaSendOk : Bool) (a : JulesActivity) : String :=
  match a.mediaOpt with
  | some m =>
    match m.data with
    | some _ => if mediaSendOk then "" else "⚠️ Failed to send media\n\n"
    | none => ""
  | none => ""

/-- The photo send of the progressUpdated processor: emitted when media data
is present and the upload succeeds, always audible. -/
def photoSends (mediaSendOk : Bool) (a : JulesActivity) : List Send :=
  match a.mediaOpt with
  | some m =>
    match m.data with
    | some _ =>
      if mediaSendOk then
        [Send.photo (jsOr a.title (jsOr a.description "Image from Jules")) false]
      else []
    | none => []
  | none => []

/-- processProgressUpdated: build the message from bash output, change set
and media failures, fall back to title/description when empty and no media,
and send it (trimmed) with disable_notification true only when there was
neither a nonzero exit code nor attached media. -/
def processProgressUpdated (mediaSendOk : Bool) (a : JulesActivity) : List Send :=
  let hasError : Bool :=
    match a.bashOutputOpt with
    | some bash => bash.exitCode.getD 0 != 0
    | none => false
  let hasMedia : Bool := a.mediaOpt.isSome
  let message0 : String := bashSection a ++ changeSection a ++ mediaFailSection mediaSendOk a
  let message : String :=
    if message0 == "" && !hasMedia then formatActivityMessage a.title a.description
    else message0
  photoSends mediaSendOk a ++
    (if jsTrim message == "" then []
     else [Send.text (jsTrim message) (!hasError && !hasMedia)])

/-- parsePlanSteps: the regex match of one description line against
a numbered-step pattern (digits, dot, whitespace, then a nonempty greedy
remainder), returning the trimmed captured step. -/
def parseStepLine (line : String) : Option String :=
  let ds := line.data.takeWhile (fun c => c.isDigit)
  if ds.isEmpty then none
  else
    match line.data.drop ds.length with
    | '.' :: rest2 =>
      let wslen := (rest2.takeWhile (fun c => c.isWhitespace)).length
      if wslen = 0 then none
      else
        let k := min wslen (rest2.length - 1)
        if k = 0 then none
        else some (jsTrim (String.mk (rest2.drop k)))
    | _ => none

/-- parsePlanSteps: numbered-list lines of the description. -/
def parsePlanSteps (description : String) : List String :=
  (description.splitOn "\n").filterMap parseStepLine

/-- processPlanGenerated: the plan-created notification. The approval
requirement is hard-coded true in the source (a TODO), the approve-plan
keyboard and the pending-plan KV write accompany the send, and the message
is always sent with disable_notification false. -/
def processPlanGenerated (a : JulesActivity) : List Send :=
  let steps := parsePlanSteps (a.description.getD "")
  let message := "🎯 <b>PLAN CREATED</b>\n\n" ++ "<b>⚠️ APPROVAL REQUIRED</b>\n\n" ++
    (if steps.length > 0 then
      createExpandableBlockquote ("🎯 PLAN - " ++ toString steps.length ++ " steps")
        (String.intercalate "\n"
          (steps.mapIdx (fun i step => toString (i + 1) ++ ". " ++ step)))
    else escapeHtml (jsOr a.description "Plan generated")) ++
    "\n\n<i>Click the button below to approve and start execution.</i>"
  [Send.text message false]

/-! ## Lemmas for the notification policy -/

theorem mem_data_append_left (c : Char) (s t : String) (h : c ∈ s.data) :
    c ∈ (s ++ t).data := by
  rw [String.data_append]
  exact List.mem_append_left _ h

theorem trimChars_ne_nil (l : List Char) (c : Char) (hc : c ∈ l)
    (hw : c.isWhitespace = false) : trimChars l ≠ [] := by
  intro heq
  rw [trimChars, List.reverse_eq_nil_iff] at heq
  have h2 : ∀ x ∈ l.dropWhile (fun d => d.isWhitespace), x.isWhitespace = true := by
    intro x hx
    have := (List.dropWhile_eq_nil_iff.mp heq) x (by simpa using hx)
    simpa using this
  have h3 : ∀ x ∈ l, x.isWhitespace = true := by
    intro x hx
    rw [← List.takeWhile_append_dropWhile (p := fun d => d.isWhitespace) (l := l)] at hx
    rcases List.mem_append.mp hx with h | h
    · simpa using List.mem_takeWhile_imp h
    · exact h2 x h
  rw [h3 c hc] at hw
  exact Bool.noConfusion hw

theorem string_beq_empty_false (s : String) (c : Char) (h : c ∈ s.data) :
    (s == "") = false := by
  have hne : s ≠ "" := by
    intro he
    rw [he] at h
    exact absurd h (List.not_mem_nil c)
  exact beq_eq_false_iff_ne.mpr hne

theorem jsTrim_beq_empty_false (s : String) (c : Char) (hc : c ∈ s.data)
    (hw : c.isWhitespace = false) : (jsTrim s == "") = false := by
  have h := trimChars_ne_nil s.data c hc hw
  have hne : jsTrim s ≠ "" := by
    intro heq
    exact h (by simpa [jsTrim, String.ext_iff] using heq)
  exact beq_eq_false_iff_ne.mpr hne

theorem formatBashOutput_has_nonws (cmd out : String) (ec : Int) :
    ∃ c ∈ (formatBashOutput cmd out ec).data, c.isWhitespace = false := by
  by_cases hl : out.length < 200
  · by_cases he : ec ≠ 0
    · refine ⟨'⚠', ?_, by decide⟩
      simp only [formatBashOutput, if_pos hl, if_pos he]
      repeat apply mem_data_append_left
      decide
    · refine ⟨'🔧', ?_, by decide⟩
      simp only [formatBashOutput, if_pos hl, if_neg he]
      repeat apply mem_data_append_left
      decide
  · refine ⟨'<', ?_, by decide⟩
    simp only [formatBashOutput, if_neg hl, createExpandableBlockquote]
    repeat apply mem_data_append_left
    decide

theorem textSendFlags_photoSends (mediaOk : Bool) (a : JulesActivity) :
    textSendFlags (photoSends mediaOk a) = [] := by
  rw [photoSends]
  cases hm : a.mediaOpt with
  | none => rfl
  | some m =>
    cases hd : m.data with
    | none => simp [hd, textSendFlags]
    | some d => cases mediaOk <;> simp [hd, textSendFlags]

/-- When the activity carries a bash output, processProgressUpdated sends
exactly one text message, whose disable_notification flag is true exactly
when the exit code is zero and no media is attached. -/
theorem processProgressUpdated_text_flag (mediaOk : Bool) (a : JulesActivity)
    (bash : BashOutput) (hbash : a.bashOutputOpt = some bash) :
    textSendFlags (processProgressUpdated mediaOk a) =
      [!(bash.exitCode.getD 0 != 0) && !a.mediaOpt.isSome] := by
  obtain ⟨c, hcmem, hcw⟩ :=
    formatBashOutput_has_nonws (jsOr bash.command "unknown") (jsOr bash.output "")
      (bash.exitCode.getD 0)
  have hbs : bashSection a =
      formatBashOutput (jsOr bash.command "unknown") (jsOr bash.output "")
        (bash.exitCode.getD 0) ++ "\n\n" := by
    rw [bashSection, hbash]
  have hmem0 : c ∈ (bashSection a ++ changeSection a
      ++ mediaFailSection mediaOk a).data := by
    apply mem_data_append_left
    apply mem_data_append_left
    rw [hbs]
    exact mem_data_append_left c _ _ hcmem
  have hne0 : ((bashSection a ++ changeSection a ++ mediaFailSection mediaOk a) == "")
      = false := string_beq_empty_false _ c hmem0
  have htrim : ((jsTrim (bashSection a ++ changeSection a
      ++ mediaFailSection mediaOk a)) == "") = false :=
    jsTrim_beq_empty_false _ c hmem0 hcw
  simp only [processProgressUpdated, hbash, hne0, Bool.false_and, Bool.if_false_left,
    htrim, Bool.false_eq_true, if_neg, if_false]
  rw [textSendFlags, List.filterMap_append]
  rw [show List.filterMap _ (photoSends mediaOk a) = textSendFlags (photoSends mediaOk a) from rfl]
  rw [textSendFlags_photoSends]
  rfl

/-- C6: a ProgressUpdate activity whose command exit code is nonzero is sent
audibly (disable_notification false); with exit code zero and no attached
media it is sent silently; and a PlanGenerated activity is always sent
audibly — the approval-required setting does not enter the send at all. -/
theorem c6_loudness_table :
    (∀ (mediaOk : Bool) (a : JulesActivity) (bash : BashOutput),
        a.bashOutputOpt = some bash → bash.exitCode.getD 0 ≠ 0 →
        textSendFlags (processProgressUpdated mediaOk a) = [false]) ∧
    (∀ (mediaOk : Bool) (a : JulesActivity) (bash : BashOutput),
        a.bashOutputOpt = some bash → bash.exitCode.getD 0 = 0 → a.mediaOpt = none →
        textSendFlags (processProgressUpdated mediaOk a) = [true]) ∧
    (∀ a : JulesActivity, textSendFlags (processPlanGenerated a) = [false]) := by
  refine ⟨?_, ?_, ?_⟩
  · intro mediaOk a bash hbash hexit
    rw [processProgressUpdated_text_flag mediaOk a bash hbash]
    simp [bne_iff_ne, hexit]
  · intro mediaOk a bash hbash hexit hmedia
    rw [processProgressUpdated_text_flag mediaOk a bash hbash]
    simp [hexit, hmedia]
  · intro a
    rfl

/-- A progress activity with a failing command. -/
def c6ErrActivity : JulesActivity :=
  { name := "e1",
    artifacts := some
      { bashOutput := some
          { command := some "make", output := some "boom", exitCode := some 1 } } }

/-- A progress activity with a succeeding command and no media. -/
def c6OkActivity : JulesActivity :=
  { name := "e2",
    artifacts := some
      { bashOutput := some
          { command := some "make", output := some "fine", exitCode := some 0 } } }

/-- C6 witness: concrete loud and silent progress notifications and a loud
plan notification. -/
theorem c6_loudness_witness :
    textSendFlags (processProgressUpdated true c6ErrActivity) = [false] ∧
    textSendFlags (processProgressUpdated true c6OkActivity) = [true] ∧
    textSendFlags (processPlanGenerated c6ErrActivity) = [false] :=
  ⟨c6_loudness_table.1 true c6ErrActivity
      { command := some "make", output := some "boom", exitCode := some 1 } rfl (by decide),
   c6_loudness_table.2.1 true c6OkActivity
      { command := some "make", output := some "fine", exitCode := some 0 } rfl rfl rfl,
   c6_loudness_table.2.2 c6ErrActivity⟩

/-! ## Per-group polling loop (src/cron/pollActivities.ts,
pollActivitiesForGroup) -/

/-- Outcome of polling one session: success, or the error classes
distinguished by isAuthError / isSessionNotFoundError, or any other error. -/
inductive PollOutcome where
  | ok
  | authErr
  | notFoundErr
  | otherErr
deriving DecidableEq, Repr

/-- The session loop of pollActivitiesForGroup: each session is polled inside
a try/catch; an auth error breaks out of the loop for the whole group, a
not-found error (and any other error) continues with the next session.
Returns the sessions attempted, in order. -/
def pollSessions (res : String → PollOutcome) : List String → List String
  | [] => []
  | s :: rest =>
    match res s with
    | PollOutcome.authErr => [s]
    | _ => s :: pollSessions res rest

/-- A tenant as the poller sees it: its stored Jules token, its sessions
index, and the (deterministic) outcome of polling each session. -/
structure Group where
  token : Option String
  index : List String
  res : String → PollOutcome

/-- pollActivitiesForGroup: skip the tenant silently when no token is
configured, otherwise run the session loop over the sessions index. -/
def pollActivitiesForGroup (g : Group) : List String :=
  match g.token with
  | none => []
  | some _ => pollSessions g.res g.index

/-- The cron pass over the fleet: each group is polled independently. -/
def pollAllGroups (gs : List Group) : List (List String) :=
  gs.map pollActivitiesForGroup

theorem pollSessions_no_auth (res : String → PollOutcome) (l : List String)
    (h : ∀ s ∈ l, res s ≠ PollOutcome.authErr) : pollSessions res l = l := by
  induction l with
  | nil => rfl
  | cons s rest ih =>
    have hs := h s (by simp)
    cases hr : res s with
    | authErr => exact absurd hr hs
    | ok => simp [pollSessions, hr, ih (fun x hx => h x (by simp [hx]))]
    | notFoundErr => simp [pollSessions, hr, ih (fun x hx => h x (by simp [hx]))]
    | otherErr => simp [pollSessions, hr, ih (fun x hx => h x (by simp [hx]))]

theorem pollSessions_auth_halt (res : String → PollOutcome) (pre post : List String)
    (s : String) (hpre : ∀ x ∈ pre, res x ≠ PollOutcome.authErr)
    (hs : res s = PollOutcome.authErr) :
    pollSessions res (pre ++ s :: post) = pre ++ [s] := by
  induction pre with
  | nil => simp [pollSessions, hs]
  | cons x xs ih =>
    have hx := hpre x (by simp)
    cases hr : res x with
    | authErr => exact absurd hr hx
    | ok => simp [pollSessions, hr, ih (fun y hy => hpre y (by simp [hy]))]
    | notFoundErr => simp [pollSessions, hr, ih (fun y hy => hpre y (by simp [hy]))]
    | otherErr => simp [pollSessions, hr, ih (fun y hy => hpre y (by simp [hy]))]

/-- C4: when polling a session of tenant g1 yields an auth error, the
sessions after it in g1's index are not polled in that run, while a sibling
tenant g2 — none of whose sessions yield auth errors, though they may yield
404s or other errors — still has its whole index polled. -/
theorem c4_auth_halt (g1 g2 : Group) (t1 t2 : String) (pre post : List String)
    (s : String)
    (ht1 : g1.token = some t1) (ht2 : g2.token = some t2)
    (hidx : g1.index = pre ++ s :: post)
    (hpre : ∀ x ∈ pre, g1.res x ≠ PollOutcome.authErr)
    (hs : g1.res s = PollOutcome.authErr)
    (h2 : ∀ x ∈ g2.index, g2.res x ≠ PollOutcome.authErr) :
    pollAllGroups [g1, g2] = [pre ++ [s], g2.index] := by
  simp only [pollAllGroups, List.map_cons, List.map_nil, pollActivitiesForGroup, ht1,
    ht2, hidx]
  rw [pollSessions_auth_halt g1.res pre post s hpre hs, pollSessions_no_auth g2.res _ h2]

/-- A group whose second session hits a 401 and whose third is never
reached. -/
def c4Group1 : Group :=
  { token := some "tokA", index := ["s1", "s2", "s3"],
    res := fun s => if s = "s2" then PollOutcome.authErr else PollOutcome.ok }

/-- A sibling group with a 404 on one session and no auth errors. -/
def c4Group2 : Group :=
  { token := some "tokB", index := ["u1", "u2"],
    res := fun s => if s = "u1" then PollOutcome.notFoundErr else PollOutcome.ok }

/-- C4 witness: the auth error stops g1 after s2, the sibling's 404 does not
stop its own remaining sessions. -/
theorem c4_auth_halt_witness :
    pollAllGroups [c4Group1, c4Group2] = [["s1", "s2"], ["u1", "u2"]] :=
  c4_auth_halt c4Group1 c4Group2 "tokA" "tokB" ["s1"] ["s3"] "s2" rfl rfl rfl
    (by decide) (by decide) (by decide)

/-! ## KV storage layout (src/kv/storage.ts) -/

/-- The external key-value store. -/
def Store := String → Option String

/-- env.KV.delete on the model store. -/
def kvDelete (st : Store) (k : String) : Store :=
  fun q => if q = k then none else st q

namespace keys

def julesToken (groupId : String) : String := "group:" ++ groupId ++ ":jules_token"

def source (groupId : String) : String := "group:" ++ groupId ++ ":source"

def defaultBranch (groupId : String) : String := "group:" ++ groupId ++ ":default_branch"

def automationMode (groupId : String) : String := "group:" ++ groupId ++ ":automation_mode"

def requireApproval (groupId : String) : String := "group:" ++ groupId ++ ":require_approval"

def sessionsIndex (groupId : String) : String := "group:" ++ groupId ++ ":sessions_index"

def session (groupId : String) (topicId : Nat) : String :=
  "group:" ++ groupId ++ ":topic:" ++ toString topicId ++ ":session"

def lastActivityId (groupId : String) (topicId : Nat) : String :=
  "group:" ++ groupId ++ ":topic:" ++ toString topicId ++ ":last_activity_id"

def pendingPlan (groupId : String) (topicId : Nat) : String :=
  "group:" ++ groupId ++ ":topic:" ++ toString topicId ++ ":pending_plan"

def readyForReview (groupId : String) (topicId : Nat) : String :=
  "group:" ++ groupId ++ ":topic:" ++ toString topicId ++ ":ready_for_review"

end keys

/-- deleteSession: delete the session record, the stored activity cursor,
the pending-plan flag and the ready-for-review flag of one (group, topic). -/
def deleteSession (st : Store) (groupId : String) (topicId : Nat) : Store :=
  kvDelete (kvDelete (kvDelete (kvDelete st (keys.session groupId topicId))
    (keys.lastActivityId groupId topicId)) (keys.pendingPlan groupId topicId))
    (keys.readyForReview groupId topicId)

/-- C10: deleteSession removes exactly the four keys of its (group, topic) —
session record, activity cursor, pending-plan flag, ready-for-review flag —
and leaves every other key of the store unchanged. -/
theorem c10_deleteSession_frame (st : Store) (g : String) (t : Nat) (k : String) :
    ((k = keys.session g t ∨ k = keys.lastActivityId g t ∨ k = keys.pendingPlan g t ∨
        k = keys.readyForReview g t) → deleteSession st g t k = none) ∧
    (k ≠ keys.session g t → k ≠ keys.lastActivityId g t → k ≠ keys.pendingPlan g t →
      k ≠ keys.readyForReview g t → deleteSession st g t k = st k) := by
  constructor
  · intro hk
    rcases hk with h | h | h | h <;> subst h <;> simp [deleteSession, kvDelete]
  · intro h1 h2 h3 h4
    simp [deleteSession, kvDelete, h1, h2, h3, h4]

/-- C10 witness: deleting topic 5 of group g1 erases that topic's cursor and
leaves another group's token untouched. -/
theorem c10_deleteSession_witness :
    deleteSession (fun _ => some "v") "g1" 5 (keys.lastActivityId "g1" 5) = none ∧
    deleteSession (fun _ => some "v") "g1" 5 (keys.julesToken "g2") = some "v" :=
  ⟨(c10_deleteSession_frame (fun _ => some "v") "g1" 5 (keys.lastActivityId "g1" 5)).1
      (Or.inr (Or.inl rfl)),
   (c10_deleteSession_frame (fun _ => some "v") "g1" 5 (keys.julesToken "g2")).2
      (by decide) (by decide) (by decide) (by decide)⟩

/-! ## Source-catalog paginators (src/jules/api.ts listSources and
src/cron/refreshSourcesCache.ts refreshSourcesForToken) -/

/-- One page of the remote sources endpoint. -/
structure Page where
  sources : List String := []
  nextPageToken : Option String := none
deriving DecidableEq, Repr

/-- The do-while loop of JulesAPI.listSources: fetch a page (a request
failure propagates as an error), append its sources, then stop when there is
no next token, when the next token was already seen (pagination-loop
defence), or when the 100-request ceiling is passed; otherwise continue with
the next token. Returns only the collected sources — the result carries no
hasMore flag. -/
def listSourcesGo (page : Option String → Except String Page) (tok : Option String)
    (seen : List String) (cnt : Nat) (acc : List String) : Except String (List String) :=
  match page tok with
  | Except.error e => Except.error e
  | Except.ok resp =>
    let acc2 := acc ++ resp.sources
    match resp.nextPageToken with
    | none => Except.ok acc2
    | some t =>
      if seen.contains t then Except.ok acc2
      else if _h : cnt + 1 > 100 then Except.ok acc2
      else listSourcesGo page (some t) (t :: seen) (cnt + 1) acc2
termination_by 101 - cnt
decreasing_by omega

/-- JulesAPI.listSources, starting with no token, nothing seen and zero
requests made. -/
def listSources (page : Option String → Except String Page) :
    Except String (List String) :=
  listSourcesGo page none [] 0 []

/-- The page loop of refreshSourcesForToken: fetch a page (a non-ok response
breaks the loop, reporting hasMore from the token of the failed request),
append its sources, stop at the maxPages ceiling reporting hasMore from the
presence of a next token, and otherwise continue while a next token exists.
There is no repeated-token detection. Returns (count, hasMore). -/
def refreshSourcesGo (fetch : Option String → Option Page) (tok : Option String)
    (pn maxPages : Nat) (acc : List String) : Nat × Bool :=
  match fetch tok with
  | none => (acc.length, tok.isSome)
  | some d =>
    let acc2 := acc ++ d.sources
    if _h : pn + 1 ≥ maxPages then (acc2.length, d.nextPageToken.isSome)
    else
      match d.nextPageToken with
      | none => (acc2.length, false)
      | some t => refreshSourcesGo fetch (some t) (pn + 1) maxPages acc2
termination_by maxPages - pn
decreasing_by omega

/-- refreshSourcesForToken, reduced to its pagination result
(count, hasMore); the cache write and logging carry no further state. -/
def refreshSourcesForToken (fetch : Option String → Option Page) (maxPages : Nat) :
    Nat × Bool :=
  refreshSourcesGo fetch none 0 maxPages []

/-- A remote whose second page repeats its own page token forever. -/
def loopPage : Option String → Page
  | none => { sources := ["s0"], nextPageToken := some "A" }
  | some _ => { sources := ["s1"], nextPageToken := some "A" }

/-- C8 counterexample: on a remote that keeps returning the already-seen
token A, the paginator that reports hasMore (refreshSourcesForToken) does
not abort at the repeated token — it keeps fetching to the 10-page ceiling,
returning 10 items instead of the 2 collected when the repeat first
appeared; the component that does abort at the repeat (JulesAPI.listSources,
returning ok of the 2 items) reports no hasMore flag at all. -/
theorem c8_counterexample :
    refreshSourcesForToken (fun t => some (loopPage t)) 10 = (10, true) ∧
    (refreshSourcesForToken (fun t => some (loopPage t)) 10).1 ≠ 2 ∧
    listSources (fun t => Except.ok (loopPage t)) = Except.ok ["s0", "s1"] := by
  refine ⟨?_, ?_, ?_⟩
  · simp [refreshSourcesForToken, refreshSourcesGo, loopPage]
  · simp [refreshSourcesForToken, refreshSourcesGo, loopPage]
  · simp [listSources, listSourcesGo, loopPage]

/-- C8 amended: JulesAPI.listSources stops at a repeated page token without
throwing and returns the sources collected so far (its result has no hasMore
flag), while refreshSourcesForToken has no repeated-token detection but
stops at its hard page ceiling and reports hasMore = true when a next-page
token remained there. -/
theorem c8_paginator_defences :
    (∀ (page : Option String → Except String Page) (r0 r1 : Page) (t : String),
        page none = Except.ok r0 → r0.nextPageToken = some t →
        page (some t) = Except.ok r1 → r1.nextPageToken = some t →
        listSources page = Except.ok (r0.sources ++ r1.sources)) ∧
    (∀ (fetch : Option String → Option Page) (maxPages : Nat), 1 ≤ maxPages →
        (∀ tok, ∃ d, fetch tok = some d ∧ d.sources.length = 1 ∧
          d.nextPageToken.isSome = true) →
        refreshSourcesForToken fetch maxPages = (maxPages, true)) := by
  constructor
  · intro page r0 r1 t h0 h0t h1 h1t
    rw [listSources, listSourcesGo, h0]
    simp only [h0t, List.nil_append]
    rw [if_neg (by simp)]
    rw [dif_neg (by omega)]
    rw [listSourcesGo, h1]
    simp only [h1t]
    rw [if_pos (by simp)]
  · intro fetch maxPages h1 hf
    have key : ∀ (k pn : Nat) (acc : List String) (tok : Option String),
        refreshSourcesGo fetch tok pn (pn + (k + 1)) acc =
          (acc.length + (k + 1), true) := by
      intro k
      induction k with
      | zero =>
        intro pn acc tok
        obtain ⟨d, hd, hlen, hnext⟩ := hf tok
        rw [refreshSourcesGo, hd]
        simp [hlen, hnext]
      | succ k ih =>
        intro pn acc tok
        obtain ⟨d, hd, hlen, hnext⟩ := hf tok
        obtain ⟨t, ht⟩ := Option.isSome_iff_exists.mp hnext
        have hc : ¬ (pn + 1 ≥ pn + (k + 1 + 1)) := by omega
        rw [refreshSourcesGo, hd]
        simp only [hc, dite_false, dif_neg, ht]
        have harg : pn + (k + 1 + 1) = (pn + 1) + (k + 1) := by omega
        rw [harg, ih (pn + 1) (acc ++ d.sources) (some t)]
        simp only [List.length_append, hlen, Prod.mk.injEq, and_true]
        omega
    have h2 : maxPages = 0 + ((maxPages - 1) + 1) := by omega
    rw [refreshSourcesForToken, h2, key (maxPages - 1) 0 [] none]
    simp

/-- C8 witness for the amended statement: a two-page self-looping remote for
the abort side, and a three-page always-more remote for the ceiling side. -/
theorem c8_paginator_witness :
    listSources (fun t => Except.ok (loopPage t)) = Except.ok (["s0"] ++ ["s1"]) ∧
    refreshSourcesForToken (fun _ => some { sources := ["s"], nextPageToken := some "A" }) 3
      = (3, true) :=
  ⟨c8_paginator_defences.1 (fun t => Except.ok (loopPage t))
      { sources := ["s0"], nextPageToken := some "A" }
      { sources := ["s1"], nextPageToken := some "A" } "A" rfl rfl rfl rfl,
   c8_paginator_defences.2 (fun _ => some { sources := ["s"], nextPageToken := some "A" }) 3
      (by omega) (fun tok => ⟨{ sources := ["s"], nextPageToken := some "A" }, rfl, rfl, rfl⟩)⟩

/-! ## Sources cache key (src/kv/storage.ts getSourcesCache / hashToken) -/

/-- Wrap an integer to the signed 32-bit range, as the JavaScript bitwise
operations do. -/
def toInt32 (n : Int) : Int := (n + 2 ^ 31) % 2 ^ 32 - 2 ^ 31

/-- One step of hashToken: hash = ((hash << 5) - hash) + charCode, wrapped
to 32 bits by hash = hash & hash. -/
def hashTokenStep (h : Int) (c : Nat) : Int := toInt32 (toInt32 (h * 32) - h + c)

/-- A base-36 digit, lowercase, as Number.prototype.toString(36) renders. -/
def digit36 (d : Nat) : Char :=
  if d < 10 then Char.ofNat (48 + d) else Char.ofNat (87 + d)

/-- Base-36 rendering of a positive natural, most significant digit first. -/
def toBase36Go (n : Nat) (acc : List Char) : List Char :=
  if h : n = 0 then acc
  else toBase36Go (n / 36) (digit36 (n % 36) :: acc)
termination_by n
decreasing_by exact Nat.div_lt_self (Nat.pos_of_ne_zero h) (by omega)

/-- Math.abs(hash).toString(36). -/
def toBase36 (n : Nat) : String :=
  if n = 0 then "0" else String.mk (toBase36Go n [])

/-- hashToken: the 32-bit string hash of the API token, rendered in
base 36. -/
def hashToken (token : String) : String :=
  toBase36 (token.data.foldl (fun h c => hashTokenStep h c.toNat) 0).natAbs

/-- The key under which getSourcesCache / setSourcesCache /
clearSourcesCache store the cached source list: derived from the token
hash, with no group id. -/
def sourcesCacheKey (token : String) : String := "cache:sources:" ++ hashToken token

/-- The keys the storage layer touches on behalf of one tenant holding one
token, over a set of topics: the group-namespaced keys of the keys table
plus the sources cache entry for the tenant's token. -/
def tenantKeys (groupId : String) (token : String) (topicIds : List Nat) : List String :=
  [keys.julesToken groupId, keys.source groupId, keys.defaultBranch groupId,
    keys.automationMode groupId, keys.requireApproval groupId, keys.sessionsIndex groupId]
  ++ topicIds.flatMap (fun t => [keys.session groupId t, keys.lastActivityId groupId t,
      keys.pendingPlan groupId t, keys.readyForReview groupId t])
  ++ [sourcesCacheKey token]

/-- The group-namespaced keys alone (the keys table, without the sources
cache). -/
def groupKeys (groupId : String) (topicIds : List Nat) : List String :=
  [keys.julesToken groupId, keys.source groupId, keys.defaultBranch groupId,
    keys.automationMode groupId, keys.requireApproval groupId, keys.sessionsIndex groupId]
  ++ topicIds.flatMap (fun t => [keys.session groupId t, keys.lastActivityId groupId t,
      keys.pendingPlan groupId t, keys.readyForReview groupId t])

/-- C9 counterexample: two distinct tenants configured with the same Jules
token touch the same sources-cache key, because that key is derived from the
token hash and carries no group id — the touched key sets are not
disjoint. -/
theorem c9_counterexample :
    (("1" : String) ≠ "2") ∧
    ¬ (∀ k ∈ tenantKeys "1" "tok" [1], k ∉ tenantKeys "2" "tok" [1]) := by
  constructor
  · decide
  · intro hdisj
    exact hdisj (sourcesCacheKey "tok") (by simp [tenantKeys]) (by simp [tenantKeys])

theorem colon_split_inj : ∀ (a b r1 r2 : List Char), ':' ∉ a → ':' ∉ b →
    a ++ ':' :: r1 = b ++ ':' :: r2 → a = b ∧ r1 = r2 := by
  intro a
  induction a with
  | nil =>
    intro b r1 r2 h1 h2 heq
    cases b with
    | nil => simpa using heq
    | cons y ys =>
      simp only [List.nil_append, List.cons_append, List.cons.injEq] at heq
      exact absurd (by rw [heq.1]; exact List.mem_cons_self y ys) h2
  | cons x xs ih =>
    intro b r1 r2 h1 h2 heq
    cases b with
    | nil =>
      simp only [List.nil_append, List.cons_append, List.cons.injEq] at heq
      exact absurd (by rw [← heq.1]; exact List.mem_cons_self x xs) h1
    | cons y ys =>
      simp only [List.cons_append, List.cons.injEq] at heq
      have hxs := ih ys r1 r2 (fun hm => h1 (List.mem_cons_of_mem x hm))
        (fun hm => h2 (List.mem_cons_of_mem y hm)) heq.2
      exact ⟨by rw [heq.1, hxs.1], hxs.2⟩

/-- Every group-namespaced key splits as the literal group: prefix, the
group id, a colon, and a remainder. -/
theorem groupKeys_shape (g : String) (tps : List Nat) (k : String)
    (hk : k ∈ groupKeys g tps) :
    ∃ s : List Char, k.data = "group:".data ++ g.data ++ ':' :: s := by
  rcases List.mem_append.mp hk with hk1 | hk2
  · simp only [List.mem_cons, List.not_mem_nil, or_false] at hk1
    rcases hk1 with h | h | h | h | h | h <;> subst h
    · exact ⟨"jules_token".data, by simp [keys.julesToken, String.data_append]⟩
    · exact ⟨"source".data, by simp [keys.source, String.data_append]⟩
    · exact ⟨"default_branch".data, by simp [keys.defaultBranch, String.data_append]⟩
    · exact ⟨"automation_mode".data, by simp [keys.automationMode, String.data_append]⟩
    · exact ⟨"require_approval".data, by simp [keys.requireApproval, String.data_append]⟩
    · exact ⟨"sessions_index".data, by simp [keys.sessionsIndex, String.data_append]⟩
  · rcases List.mem_flatMap.mp hk2 with ⟨t, ht, hkt⟩
    simp only [List.mem_cons, List.not_mem_nil, or_false] at hkt
    rcases hkt with h | h | h | h <;> subst h
    · exact ⟨("topic:" ++ toString t ++ ":session").data,
        by simp [keys.session, String.data_append, List.append_assoc]⟩
    · exact ⟨("topic:" ++ toString t ++ ":last_activity_id").data,
        by simp [keys.lastActivityId, String.data_append, List.append_assoc]⟩
    · exact ⟨("topic:" ++ toString t ++ ":pending_plan").data,
        by simp [keys.pendingPlan, String.data_append, List.append_assoc]⟩
    · exact ⟨("topic:" ++ toString t ++ ":ready_for_review").data,
        by simp [keys.readyForReview, String.data_append, List.append_assoc]⟩

/-- C9 amended: the keys built by the keys table are all namespaced by group
id, and for group ids containing no colon (Telegram chat ids are numeric)
the key sets of distinct tenants are disjoint; the sources cache key,
however, is derived only from the token hash, so two tenants configured
with the same token share it. -/
theorem c9_group_keys_disjoint (g1 g2 : String) (tps1 tps2 : List Nat)
    (h1 : ':' ∉ g1.data) (h2 : ':' ∉ g2.data) (hne : g1 ≠ g2) :
    ∀ k ∈ groupKeys g1 tps1, k ∉ groupKeys g2 tps2 := by
  intro k hk1 hk2
  obtain ⟨s1, e1⟩ := groupKeys_shape g1 tps1 k hk1
  obtain ⟨s2, e2⟩ := groupKeys_shape g2 tps2 k hk2
  have e3 : "group:".data ++ (g1.data ++ ':' :: s1)
      = "group:".data ++ (g2.data ++ ':' :: s2) := by
    have h := e1.symm.trans e2
    simpa [List.append_assoc] using h
  have e4 : g1.data ++ ':' :: s1 = g2.data ++ ':' :: s2 :=
    List.append_cancel_left e3
  exact hne (String.ext (colon_split_inj g1.data g2.data s1 s2 h1 h2 e4).1)

/-- C9 witness for the amended statement: a key of tenant 11 is never a key
of tenant 22. -/
theorem c9_group_keys_witness :
    keys.julesToken "11" ∉ groupKeys "22" [3] :=
  c9_group_keys_disjoint "11" "22" [3] [3] (by decide) (by decide) (by decide)
    (keys.julesToken "11") (by simp [groupKeys])

end Jot
